import Mathlib

set_option autoImplicit false
set_option maxHeartbeats 1000000

/-!
Verification of the fydemy/cms content-management subsystem.

Strings are modelled as `List Char` (`Str`), JavaScript numbers that the code
uses as counters/timestamps as `Nat`, and thrown exceptions as `Except`
results.  Each TypeScript function of the validated subsystem is translated
into a computable Lean definition; theorems then settle the specification
claims against those definitions.
-/

deriving instance DecidableEq for Except

namespace CMS

/-- Model of JavaScript strings: a list of characters. -/
abbrev Str := List Char

/-- Character class of the key/username regex `[a-zA-Z0-9_-]`. -/
def wordChar (c : Char) : Bool :=
  c.isAlphanum || c == '_' || c == '-'

/-- Boolean prefix test on character lists (`String.startsWith`). -/
def startsWithL (pat s : Str) : Bool :=
  pat.isPrefixOf s

/-- Boolean substring test (`String.includes`): does `pat` occur in `s`? -/
def hasSub (pat : Str) : Str → Bool
  | [] => pat.isEmpty
  | c :: rest => pat.isPrefixOf (c :: rest) || hasSub pat rest

/-- The literal `".."` used by the traversal checks. -/
def ddPat : Str := ['.', '.']

/-- The null character rejected by the validators. -/
def nullChar : Char := '\x00'

/-- Drops empty and `"."` segments, as `path.normalize` does while scanning. -/
def dropDots (segs : List Str) : List Str :=
  segs.filter (fun seg => !(seg.isEmpty || seg == ['.']))

/-- Resolves `".."` segments the way posix `path.normalize` does: a `".."`
pops a previous real segment; unmatched `".."`s are kept on relative paths
and dropped on absolute ones. -/
def resolveUp (abs : Bool) (segs : List Str) : List Str :=
  segs.foldl
    (fun acc seg =>
      if seg == ddPat then
        if acc ≠ [] ∧ acc.getLast? ≠ some ddPat then acc.dropLast
        else if abs then acc
        else acc ++ [seg]
      else acc ++ [seg])
    []

/-- Model of node `path.normalize` for posix paths: collapses separators,
resolves `"."` and `".."` segments, preserves a leading and a trailing
separator, and maps the empty path to `"."`. -/
def normalizePosix (p : Str) : Str :=
  if p = [] then ['.']
  else
    let abs := startsWithL ['/'] p
    let trail := startsWithL ['/'] p.reverse
    let segs := resolveUp abs (dropDots (List.splitOn '/' p))
    let core := List.intercalate ['/'] segs
    if abs then
      if core = [] then ['/'] else '/' :: core ++ (if trail then ['/'] else [])
    else
      (if core = [] then ['.'] else core) ++ (if trail then ['/'] else [])

/-- The `replace(/^(\.\.(\/|\\|$))+/, "")` step applied after normalization:
strips leading repetitions of `".."` followed by a separator or the end. -/
def stripDD : Str → Str
  | '.' :: '.' :: '/' :: rest => stripDD rest
  | '.' :: '.' :: '\\' :: rest => stripDD rest
  | ['.', '.'] => []
  | s => s

/-- The characters of the dangerous-character class `[<>:"|?*]`. -/
def dangerChar (c : Char) : Bool :=
  c == '<' || c == '>' || c == ':' || c == '"' || c == '|' || c == '?' || c == '*'

/-- Helper for the reserved-device-name regex: after the name, the string must
end or continue with a dot (`(\..*)?$`). -/
def devTailOk : Str → Bool
  | [] => true
  | '.' :: _ => true
  | _ => false

/-- The case-insensitive Windows reserved-device-name regex
`^(con|prn|aux|nul|com[0-9]|lpt[0-9])(\..*)?$` applied to an
already-lowercased string. -/
def reservedBase : Str → Bool
  | 'c' :: 'o' :: 'n' :: rest => devTailOk rest
  | 'p' :: 'r' :: 'n' :: rest => devTailOk rest
  | 'a' :: 'u' :: 'x' :: rest => devTailOk rest
  | 'n' :: 'u' :: 'l' :: rest => devTailOk rest
  | 'c' :: 'o' :: 'm' :: d :: rest => d.isDigit && devTailOk rest
  | 'l' :: 'p' :: 't' :: d :: rest => d.isDigit && devTailOk rest
  | _ => false

/-- The `dangerousPatterns` loop of `validateFilePath`, run on the normalized
path: any `".."`, a leading separator, a character in `<>:"|?*`, a null byte,
or a reserved device name. -/
def dangerScan (n : Str) : Bool :=
  hasSub ddPat n || startsWithL ['/'] n || startsWithL ['\\'] n ||
    n.any dangerChar || n.contains nullChar || reservedBase (n.map Char.toLower)

/-- The distinct failure messages thrown by `validateFilePath`. -/
inductive PathError where
  | emptyPath
  | nullByte
  | traversal
  | absolute
  | dangerous
deriving DecidableEq

/-- Model of `validateFilePath` (packages/core/src/utils/validation.ts):
rejects empty paths, null bytes, any `".."` substring (before normalization),
a post-normalization leading separator, and the dangerous-pattern scan;
returns the normalized path otherwise. -/
def validateFilePath (p : Str) : Except PathError Str :=
  if p = [] then .error .emptyPath
  else if p.contains nullChar then .error .nullByte
  else if hasSub ddPat p then .error .traversal
  else
    let n := stripDD (normalizePosix p)
    if startsWithL ['/'] n || startsWithL ['\\'] n then .error .absolute
    else if dangerScan n then .error .dangerous
    else .ok n

/-! ## Frontmatter sanitization -/

/-- Strips null bytes from a string value (`value.replace(/\x00/g, "")`). -/

def stripNull (s : Str) : Str :=
  s.filter (fun c => c != nullChar)

/-- Does a key match the frontmatter key regex `^[a-zA-Z0-9_-]+$`? -/
def keyOk (k : Str) : Bool :=
  !k.isEmpty && k.all wordChar

mutual

/-- Model of the JavaScript values a frontmatter mapping can hold: strings,
numbers (integral here), booleans, null, arrays and nested objects. -/
inductive Fm where
  | str : Str → Fm
  | num : Int → Fm
  | bool : Bool → Fm
  | null : Fm
  | arr : FmList → Fm
  | obj : FmObj → Fm
deriving DecidableEq

/-- A JavaScript array of frontmatter values. -/
inductive FmList where
  | nil : FmList
  | cons : Fm → FmList → FmList
deriving DecidableEq

/-- A JavaScript object as an ordered key-value record (JavaScript objects
preserve insertion order and cannot hold duplicate keys). -/
inductive FmObj where
  | nil : FmObj
  | cons : Str → Fm → FmObj → FmObj
deriving DecidableEq

end

/-- Array-element handling of `sanitizeFrontmatter`: string elements are
null-stripped, every other element passes through unchanged (the source does
not recurse into array elements). -/
def sanitizeArrayItem : Fm → Fm
  | .str s => .str (stripNull s)
  | v => v

/-- The `value.map(...)` over an array value inside `sanitizeFrontmatter`. -/
def sanitizeArray : FmList → FmList
  | .nil => .nil
  | .cons v t => .cons (sanitizeArrayItem v) (sanitizeArray t)

mutual

/-- Model of `sanitizeFrontmatter` (packages/core/src/utils/validation.ts):
drops keys failing the key regex, strips null bytes from string values and
string array elements, passes numbers/booleans/null through, and recurses
into nested objects. -/
def sanitizeFrontmatter : FmObj → FmObj
  | .nil => .nil
  | .cons k v rest =>
    if keyOk k then .cons k (sanitizeValue v) (sanitizeFrontmatter rest)
    else sanitizeFrontmatter rest

/-- The per-type value dispatch inside the `sanitizeFrontmatter` loop. -/
def sanitizeValue : Fm → Fm
  | .str s => .str (stripNull s)
  | .num n => .num n
  | .bool b => .bool b
  | .null => .null
  | .arr xs => .arr (sanitizeArray xs)
  | .obj kvs => .obj (sanitizeFrontmatter kvs)

end

/-! ## Markdown layer: gray-matter / js-yaml model

`parseMarkdown` and `stringifyMarkdown` delegate to the `gray-matter` and
`js-yaml` libraries, which are dependencies outside this repository.  They are
modelled here from their documented behaviour: gray-matter newline-terminates
the stringified body and strips exactly one newline after the closing
delimiter when parsing; js-yaml renders one `key: value` line per entry,
rendering a scalar plainly when unambiguous and single-quoted otherwise.
Nested array/object values are rendered in YAML flow style in this model
(js-yaml uses block style; no theorem depends on the nested rendering), the
only frontmatter engine modelled is the default (empty) language tag, and the
scalar resolvers cover the token forms the dumper can emit. -/

/-- `gray-matter`'s newline helper: append a trailing newline when missing. -/

def ensureNl (s : Str) : Str :=
  if s.getLast? = some '\n' then s else s ++ ['\n']

/-- ASCII letter test, written on character codes for direct arithmetic
reasoning. -/
def asciiAlpha (c : Char) : Bool :=
  (65 ≤ c.toNat && c.toNat ≤ 90) || (97 ≤ c.toNat && c.toNat ≤ 122)

/-- ASCII decimal digit test. -/
def digit10 (c : Char) : Bool :=
  48 ≤ c.toNat && c.toNat ≤ 57

/-- ASCII letter or digit. -/
def asciiAlnum (c : Char) : Bool :=
  asciiAlpha c || digit10 c

/-- Tokens the YAML 1.1 bool resolver of js-yaml reads as `true`. -/
def trueToks : List Str :=
  ["true".data, "True".data, "TRUE".data, "yes".data, "Yes".data, "YES".data,
    "on".data, "On".data, "ON".data]

/-- Tokens the YAML 1.1 bool resolver of js-yaml reads as `false`. -/
def falseToks : List Str :=
  ["false".data, "False".data, "FALSE".data, "no".data, "No".data, "NO".data,
    "off".data, "Off".data, "OFF".data]

/-- Tokens the YAML null resolver reads as `null` (including the empty value). -/
def nullToks : List Str :=
  ["null".data, "Null".data, "NULL".data, "~".data, "".data]

/-- Decimal digit character for a digit value below ten. -/
def digitChar10 : Nat → Char
  | 0 => '0'
  | 1 => '1'
  | 2 => '2'
  | 3 => '3'
  | 4 => '4'
  | 5 => '5'
  | 6 => '6'
  | 7 => '7'
  | 8 => '8'
  | _ => '9'

/-- Fuel-driven decimal rendering of a natural number (most significant digit
first); the fuel is always at least `n + 1`, which suffices. -/
def natReprAux : Nat → Nat → Str
  | 0, _ => []
  | fuel + 1, n =>
    if n < 10 then [digitChar10 n]
    else natReprAux fuel (n / 10) ++ [digitChar10 (n % 10)]

/-- Decimal rendering of a natural number. -/
def natRepr (n : Nat) : Str :=
  natReprAux (n + 1) n

/-- Decimal rendering of an integer, as js-yaml dumps integral numbers. -/
def intRepr (i : Int) : Str :=
  if i < 0 then '-' :: natRepr i.natAbs else natRepr i.natAbs

/-- Numeric value of a decimal digit character. -/
def digitVal (c : Char) : Nat := c.toNat - 48

/-- Folds a digit string into the natural number it denotes. -/
def decodeDigits (s : Str) : Nat :=
  s.foldl (fun a c => a * 10 + digitVal c) 0

/-- Reads a nonempty all-digit token as a natural number. -/
def parseNatTok (s : Str) : Option Nat :=
  if !s.isEmpty && s.all digit10 then some (decodeDigits s) else none

/-- Reads a decimal integer token of the form the dumper emits. -/
def parseIntTok (s : Str) : Option Int :=
  if startsWithL ['-'] s then (parseNatTok (s.drop 1)).map (fun n => -(n : Int))
  else (parseNatTok s).map (fun n => (n : Int))

/-- Characters our conservative plain-style test allows. -/
def plainChar (c : Char) : Bool :=
  asciiAlnum c || c == ' ' || c == '_' || c == '-'

/-- Conservative model of js-yaml choosing plain (unquoted) string style: a
nonempty string of letters/digits/space/underscore/hyphen that starts with a
letter, does not end with a space and is not a resolver token. -/
def plainOk : Str → Bool
  | [] => false
  | c :: rest =>
    asciiAlpha c && (c :: rest).all plainChar && ((c :: rest).getLast? != some ' ') &&
      !trueToks.contains (c :: rest) && !falseToks.contains (c :: rest) &&
        !nullToks.contains (c :: rest)

/-- Doubles single quotes, the YAML single-quoted escaping. -/
def sqEscape : Str → Str
  | [] => []
  | c :: t => if c = '\'' then '\'' :: '\'' :: sqEscape t else c :: sqEscape t

/-- Wraps a string in YAML single-quoted style. -/
def squote (s : Str) : Str :=
  '\'' :: (sqEscape s ++ ['\''])

mutual

/-- js-yaml rendering of a single value: plain or single-quoted strings,
decimal numbers, `true`/`false`/`null` keywords; nested arrays/objects in
flow style. -/
def dumpVal : Fm → Str
  | .str s => if plainOk s then s else squote s
  | .num i => intRepr i
  | .bool true => "true".data
  | .bool false => "false".data
  | .null => "null".data
  | .arr xs => '[' :: (dumpFlowList xs ++ [']'])
  | .obj kvs => '{' :: (dumpFlowObj kvs ++ ['}'])

/-- Flow-style rendering of array elements. -/
def dumpFlowList : FmList → Str
  | .nil => []
  | .cons v .nil => dumpVal v
  | .cons v t => dumpVal v ++ ',' :: ' ' :: dumpFlowList t

/-- Flow-style rendering of object entries. -/
def dumpFlowObj : FmObj → Str
  | .nil => []
  | .cons k v .nil => k ++ ':' :: ' ' :: dumpVal v
  | .cons k v t => (k ++ ':' :: ' ' :: dumpVal v) ++ ',' :: ' ' :: dumpFlowObj t

end

/-- The js-yaml block dump of a mapping, already trimmed the way gray-matter
trims it: one `key: value` line per entry, newline-separated, no trailing
newline. -/
def yamlDump : FmObj → Str
  | .nil => []
  | .cons k v .nil => k ++ ':' :: ' ' :: dumpVal v
  | .cons k v rest => (k ++ ':' :: ' ' :: dumpVal v) ++ '\n' :: yamlDump rest

/-- Model of `stringifyMarkdown` (gray-matter `stringify`): an empty map
serializes to `"{}"` and is omitted entirely; otherwise the delimited YAML
block precedes the body; the body is newline-terminated in both cases. -/
def stringifyMarkdown (d : FmObj) (c : Str) : Str :=
  if d = .nil then ensureNl c
  else "---".data ++ '\n' :: yamlDump d ++ "\n---".data ++ '\n' :: ensureNl c

/-- Splits a string at the first occurrence of the closing frontmatter marker
`"\n---"`, returning the part before it and the part after it. -/
def splitAtMarker : Str → Option (Str × Str)
  | [] => none
  | c :: rest =>
    if startsWithL "\n---".data (c :: rest) then some ([], (c :: rest).drop 4)
    else
      match splitAtMarker rest with
      | some pq => some (c :: pq.1, pq.2)
      | none => none

/-- Splits a string into its newline-separated lines. -/
def splitLines : Str → List Str
  | [] => [[]]
  | c :: t =>
    if c = '\n' then [] :: splitLines t
    else
      match splitLines t with
      | [] => [[c]]
      | l :: ls => (c :: l) :: ls

/-- Intra-line whitespace characters. -/
def isWsChar (c : Char) : Bool :=
  c == ' ' || c == '\t' || c == '\r'

/-- Trims intra-line whitespace from both ends. -/
def trimWs (s : Str) : Str :=
  ((s.dropWhile isWsChar).reverse.dropWhile isWsChar).reverse

/-- A YAML line that carries no mapping entry: blank or a `#` comment line. -/
def skippableLine (l : Str) : Bool :=
  l.all isWsChar || startsWithL ['#'] (l.dropWhile isWsChar)

/-- Reads the characters of a single-quoted scalar after the opening quote,
unescaping doubled quotes; returns the content and the rest of the line. -/
def parseSquoted : Str → Option (Str × Str)
  | [] => none
  | c :: t =>
    if c = '\'' then
      match t with
      | [] => some ([], [])
      | t0 :: t1 =>
        if t0 = '\'' then (parseSquoted t1).map (fun r => ('\'' :: r.1, r.2))
        else some ([], t)
    else (parseSquoted t).map (fun r => (c :: r.1, r.2))

/-- Resolves a plain scalar token: bool and null keywords, then decimal
integers, otherwise a string — mirroring the js-yaml implicit resolvers on
the token forms the dumper emits. -/
def classifyPlain (t : Str) : Fm :=
  if trueToks.contains t then .bool true
  else if falseToks.contains t then .bool false
  else if nullToks.contains t then .null
  else
    match parseIntTok t with
    | some i => .num i
    | none => .str t

/-- Reads the value part of a `key: value` line. -/
def parseValTok : Str → Option Fm
  | [] => some (classifyPlain (trimWs []))
  | c :: t =>
    if c = '\'' then
      match parseSquoted t with
      | some r => if r.2.all isWsChar then some (.str r.1) else none
      | none => none
    else some (classifyPlain (trimWs (c :: t)))

/-- Reads one `key: value` mapping line. -/
def parseLine (l : Str) : Option (Str × Fm) :=
  if (l.takeWhile (fun c => c != ':')).isEmpty then none
  else
    match l.drop (l.takeWhile (fun c => c != ':')).length with
    | [] => none
    | ':' :: rest =>
      match rest with
      | [] => some (l.takeWhile (fun c => c != ':'), .null)
      | ' ' :: v => (parseValTok v).map (fun fv => (l.takeWhile (fun c => c != ':'), fv))
      | _ => none
    | _ => none

/-- Reads a sequence of mapping lines into an object. -/
def yamlLoadAux : List Str → Option FmObj
  | [] => some .nil
  | l :: rest =>
    match parseLine l, yamlLoadAux rest with
    | some kv, some o => some (.cons kv.1 kv.2 o)
    | _, _ => none

/-- Model of js-yaml `load` restricted to one-level block mappings: skips
blank and comment lines and reads every other line as a `key: value` entry. -/
def yamlLoad (s : Str) : Option FmObj :=
  yamlLoadAux ((splitLines s).filter (fun l => !skippableLine l))

/-- Does stripping `^\s*#` comment lines and trimming leave the metadata
block empty (gray-matter's emptiness test)? -/
def blockEmpty (s : Str) : Bool :=
  (splitLines s).all skippableLine

/-- Strips one optional `'\r'` and then one optional `'\n'` from the front,
exactly as gray-matter does after the closing delimiter. -/
def stripLeadNl (s : Str) : Str :=
  let s1 := if startsWithL ['\r'] s then s.drop 1 else s
  if startsWithL ['\n'] s1 then s1.drop 1 else s1

/-- Parse failures of the markdown layer's `matter` call: an unregistered
engine tag or a YAML syntax error (both thrown in the source). -/
inductive MdError where
  | engine
  | yaml
deriving DecidableEq

/-- Model of `parseMarkdown` (gray-matter `matter`): absent or non-open
frontmatter yields an empty map and the raw text; otherwise the text up to
the first `"\n---"` is read as YAML (an empty block yields an empty map) and
the body is what follows after one newline. -/
def parseMarkdown (raw : Str) : Except MdError (FmObj × Str) :=
  if !startsWithL "---".data raw || startsWithL "----".data raw then .ok (.nil, raw)
  else
    let str := raw.drop 3
    let langLine := trimWs (str.takeWhile (fun c => c != '\n'))
    if !langLine.isEmpty then .error .engine
    else
      match splitAtMarker str with
      | none =>
        if blockEmpty str then .ok (.nil, [])
        else
          match yamlLoad str with
          | some d => .ok (d, [])
          | none => .error .yaml
      | some pq =>
        let content := stripLeadNl pq.2
        if blockEmpty pq.1 then .ok (.nil, content)
        else
          match yamlLoad pq.1 with
          | some d => .ok (d, content)
          | none => .error .yaml

/-! ### The class of maps for which the round-trip is established -/

/-- UTF-8 byte size of one character (model of `Buffer.byteLength` per char). -/

def utf8Size (c : Char) : Nat :=
  if c.toNat < 0x80 then 1
  else if c.toNat < 0x800 then 2
  else if c.toNat < 0x10000 then 3
  else 4

/-- UTF-8 byte length of a string (`Buffer.byteLength(s, "utf-8")`). -/
def utf8Len (s : Str) : Nat :=
  (s.map utf8Size).sum

/-- `MAX_FILE_SIZE`: 10 MiB. -/
def MAX_FILE_SIZE : Nat := 10 * 1024 * 1024

/-- One call issued to the selected Storage Provider, carrying the path it
was given (and the written content for writes). -/
inductive StorageCall where
  | readFile : Str → StorageCall
  | writeFile : Str → Str → StorageCall
  | deleteFile : Str → StorageCall
  | listFiles : Str → StorageCall
  | existsQ : Str → StorageCall
  | uploadFile : Str → StorageCall
deriving DecidableEq

/-- The path argument a storage call passes to the provider. -/
def StorageCall.path : StorageCall → Str
  | .readFile p => p
  | .writeFile p _ => p
  | .deleteFile p => p
  | .listFiles p => p
  | .existsQ p => p
  | .uploadFile p => p

/-- Failures of the markdown content layer. -/
inductive CmsError where
  | invalidPath : PathError → CmsError
  | notFound : CmsError
  | fileTooLarge : CmsError
  | badMarkdown : MdError → CmsError
deriving DecidableEq

/-- Model of `getMarkdownContent` (content/markdown.ts): validate the path,
read through the provider (`store` maps provider paths to contents), enforce
the size ceiling on the raw bytes post-read, then parse.  The second
component is the trace of provider calls issued. -/
def getMarkdownContent (store : Str → Option Str) (filePath : Str) :
    Except CmsError (FmObj × Str) × List StorageCall :=
  match validateFilePath filePath with
  | .error e => (.error (.invalidPath e), [])
  | .ok v =>
    match store v with
    | none => (.error .notFound, [.readFile v])
    | some raw =>
      if utf8Len raw > MAX_FILE_SIZE then (.error .fileTooLarge, [.readFile v])
      else
        match parseMarkdown raw with
        | .ok md => (.ok md, [.readFile v])
        | .error e => (.error (.badMarkdown e), [.readFile v])

/-- Model of `saveMarkdownContent`: validate the path, sanitize the
frontmatter, serialize, enforce the size ceiling on the serialized output
before writing, then write through the provider. -/
def saveMarkdownContent (filePath : Str) (data : FmObj) (content : Str) :
    Except CmsError Unit × List StorageCall :=
  match validateFilePath filePath with
  | .error e => (.error (.invalidPath e), [])
  | .ok v =>
    if utf8Len (stringifyMarkdown (sanitizeFrontmatter data) content) > MAX_FILE_SIZE then
      (.error .fileTooLarge, [])
    else
      (.ok (), [.writeFile v (stringifyMarkdown (sanitizeFrontmatter data) content)])

/-- Model of `deleteMarkdownContent`: validate, then delegate the delete (the
result component models the validation outcome; the trace the provider
interaction). -/
def deleteMarkdownContent (filePath : Str) : Except CmsError Unit × List StorageCall :=
  match validateFilePath filePath with
  | .error e => (.error (.invalidPath e), [])
  | .ok v => (.ok (), [.deleteFile v])

/-- Model of `listMarkdownFiles`: validates the directory only when nonempty
(the empty default denotes the content root and skips validation). -/
def listMarkdownFiles (directory : Str) : Except CmsError Unit × List StorageCall :=
  if directory = [] then (.ok (), [.listFiles []])
  else
    match validateFilePath directory with
    | .error e => (.error (.invalidPath e), [])
    | .ok v => (.ok (), [.listFiles v])

/-- Model of `markdownFileExists`: validate, then delegate. -/
def markdownFileExists (filePath : Str) : Except CmsError Unit × List StorageCall :=
  match validateFilePath filePath with
  | .error e => (.error (.invalidPath e), [])
  | .ok v => (.ok (), [.existsQ v])

/-- Model of `listDirectory` (content/directory.ts): forwards the directory
to the provider without any validation. -/
def listDirectory (directory : Str) : Unit × List StorageCall :=
  ((), [.listFiles directory])

/-- Model of `getCollectionItem` (content/collection.ts): interpolates
`folderName/slug.md` and forwards it, unvalidated, to `exists` and (when
present) `readFile`. -/
def getCollectionItem (storeExists : Str → Bool) (folderName slug : Str) :
    Unit × List StorageCall :=
  if storeExists (folderName ++ '/' :: (slug ++ ".md".data)) then
    ((), [.existsQ (folderName ++ '/' :: (slug ++ ".md".data)),
          .readFile (folderName ++ '/' :: (slug ++ ".md".data))])
  else ((), [.existsQ (folderName ++ '/' :: (slug ++ ".md".data))])

/-- JavaScript `String.split` on a separator character. -/
def splitOnC (sep : Char) : Str → List Str
  | [] => [[]]
  | c :: t =>
    if c = sep then [] :: splitOnC sep t
    else
      match splitOnC sep t with
      | [] => [[c]]
      | l :: ls => (c :: l) :: ls

/-- JavaScript `String.replace` with a string pattern: replaces only the
first occurrence; returns the string unchanged when the pattern is absent. -/
def replaceFirst (pat rep : Str) : Str → Str
  | [] => if pat.isPrefixOf [] then rep else []
  | c :: t =>
    if pat.isPrefixOf (c :: t) then rep ++ (c :: t).drop pat.length
    else c :: replaceFirst pat rep t

/-- Model of `uploadFile` (content/upload.ts): the extension is the last
dot-segment of the original filename, the first `.ext` occurrence is removed,
`-timestamp.ext` is appended, and the result goes to the provider without
validation. -/
def uploadFile (fileName : Str) (timestamp : Nat) : Str × List StorageCall :=
  ((replaceFirst ('.' :: (splitOnC '.' fileName).getLastD []) [] fileName) ++
      '-' :: (natRepr timestamp ++ '.' :: (splitOnC '.' fileName).getLastD []),
    [.uploadFile ((replaceFirst ('.' :: (splitOnC '.' fileName).getLastD []) [] fileName) ++
      '-' :: (natRepr timestamp ++ '.' :: (splitOnC '.' fileName).getLastD []))])

/-- A provider path counts as accepted when some raw input validates to it. -/
def acceptedPath (p : Str) : Prop :=
  ∃ raw, validateFilePath raw = .ok p

/-! ## Storage provider variants: `deleteFile`

The provider backends call node `fs`, the GitHub contents API (octokit) and
an S3 client, none of which live in this repository; their error behaviour is
modelled from the documented semantics: `fs.unlink` raises `ENOENT` on a
missing path, `repos.getContent` raises a 404 error on a missing path, and S3
`DeleteObject` succeeds whether or not the key exists. -/

/-- `path.join` of two segments as the providers use it. -/

def joinSeg (a b : Str) : Str := a ++ '/' :: b

/-- `LocalStorage.getFullPath`: `path.join(process.cwd(), baseDir, filePath)`. -/
def localFullPath (cwd baseDir filePath : Str) : Str :=
  joinSeg (joinSeg cwd baseDir) filePath

/-- Error raised by node `fs.unlink` for a missing path. -/
inductive FsError where
  | enoent
deriving DecidableEq

/-- Model of node `fs.unlink` over a set of existing full paths. -/
def fsUnlink (fs : List Str) (fullPath : Str) : Except FsError Unit :=
  if fullPath ∈ fs then .ok () else .error .enoent

/-- `LocalStorage.deleteFile`: a bare unlink at the full path — a missing
file surfaces the backend's not-found error. -/
def localDeleteFile (fs : List Str) (cwd baseDir filePath : Str) : Except FsError Unit :=
  fsUnlink fs (localFullPath cwd baseDir filePath)

/-- A GitHub contents-API entry: a file with its blob sha, or a directory. -/
inductive GitEntry where
  | file : Str → GitEntry
  | dir : GitEntry
deriving DecidableEq

/-- Error raised by `repos.getContent` for a missing path. -/
inductive GitError where
  | notFound404
deriving DecidableEq

/-- `GitHubStorage.getGitHubPath`. -/
def githubPath (baseDir filePath : Str) : Str := baseDir ++ '/' :: filePath

/-- `GitHubStorage.deleteFile`: resolves the current sha via `getContent`
(which throws 404 when the path is absent, propagating out) and then issues
the delete; a directory result carries no `sha` field, so the delete is
silently skipped and the call succeeds. -/
def githubDeleteFile (repo : Str → Option GitEntry) (baseDir filePath : Str) :
    Except GitError Unit :=
  match repo (githubPath baseDir filePath) with
  | none => .error .notFound404
  | some (.file _) => .ok ()
  | some .dir => .ok ()

/-- Failure of an S3 `send` (network/service faults, outside this model). -/
inductive S3Error where
  | serviceError
deriving DecidableEq

/-- `CloudflareR2Storage.deleteFile`: a bare S3 `DeleteObjectCommand` at the
keyed path — S3 delete is idempotent and succeeds whether or not the object
exists, so the bucket contents are irrelevant to the outcome. -/
def r2DeleteFile (_bucket : List Str) (_baseDir _filePath : Str) : Except S3Error Unit :=
  .ok ()

/-! ## Credential checking -/

/-- The fail-fast configuration error of `validateCredentials`. -/

inductive AuthError where
  | misconfiguredAuth
deriving DecidableEq

/-- The distinct messages thrown by the input validators. -/
inductive InputError where
  | required
  | tooLong
  | badChars
deriving DecidableEq

/-- `MAX_USERNAME_LENGTH`. -/
def MAX_USERNAME_LENGTH : Nat := 100

/-- `MAX_PASSWORD_LENGTH`. -/
def MAX_PASSWORD_LENGTH : Nat := 1000

/-- Model of `validateUsername`: nonempty, at most 100 characters, matching
`^[a-zA-Z0-9_-]+$`; each failure throws. -/
def validateUsername (username : Str) : Except InputError Bool :=
  if username = [] then .error .required
  else if username.length > MAX_USERNAME_LENGTH then .error .tooLong
  else if !username.all wordChar then .error .badChars
  else .ok true

/-- Model of `validatePassword`: nonempty and at most 1000 characters. -/
def validatePassword (password : Str) : Except InputError Bool :=
  if password = [] then .error .required
  else if password.length > MAX_PASSWORD_LENGTH then .error .tooLong
  else .ok true

/-- Model of the `timingSafeEqual` helper: equality of the UTF-8 buffers —
extensionally, string equality (the dummy comparison on a length mismatch
only equalizes timing before returning false). -/
def timingSafeEqualModel (a b : Str) : Bool := a == b

/-- JavaScript falsiness of an optional environment string: `undefined` and
the empty string are falsy. -/
def envFalsy : Option Str → Bool
  | none => true
  | some s => s.isEmpty

/-- Model of `validateCredentials` (auth/login.ts): input-format validation
runs first and converts its failures into `false`; only then are the
configured credentials checked, throwing `MisconfiguredAuth` when either is
falsy; finally both timing-safe comparisons are performed. -/
def validateCredentials (username password : Str) (envUsername envPassword : Option Str) :
    Except AuthError Bool :=
  if (validateUsername username).isOk && (validatePassword password).isOk then
    if envFalsy envUsername || envFalsy envPassword then .error .misconfiguredAuth
    else
      .ok (timingSafeEqualModel username (envUsername.getD []) &&
        timingSafeEqualModel password (envPassword.getD []))
  else .ok false

/-! ## Session verification -/

/-- `getSecretKey`: requires a configured session secret of at least 32
characters (JavaScript falsiness folds the empty string into the length
check). -/

def getSecretKey (envSecret : Option Str) : Except Unit Str :=
  match envSecret with
  | none => .error ()
  | some s => if s.length < 32 then .error () else .ok s

/-- A decoded JWT claim value, as far as the structural checks inspect it. -/
inductive JVal where
  | jstr : Str → JVal
  | jnum : Int → JVal
  | jother : JVal
deriving DecidableEq

/-- The claims object `jwtVerify` can resolve on success. -/
structure JwtClaims where
  username : Option JVal
  exp : Option JVal

/-- Model of `verifySession` (auth/session.ts): the whole body, including the
secret-key lookup, runs inside a `try/catch` that returns `null`; the
cryptographic verification (signature and expiry) is abstracted as the
`jwtVerify` oracle, whose failure is the thrown verification error. -/
def verifySession (envSecret : Option Str)
    (jwtVerify : Str → Str → Except Unit JwtClaims) (token : Str) :
    Option (Str × Int) :=
  match getSecretKey envSecret with
  | .error _ => none
  | .ok key =>
    match jwtVerify token key with
    | .error _ => none
    | .ok payload =>
      match payload.username, payload.exp with
      | some (.jstr u), some (.jnum e) => some (u, e)
      | _, _ => none

/-! ## Rate limiter -/

/-- One rate-limit store entry. -/

structure RLEntry where
  count : Nat
  resetTime : Nat
deriving DecidableEq

/-- The in-memory `Map` from identifier to entry, as a partial function
(JavaScript `Map` keys are unique). -/
abbrev RLState := Str → Option RLEntry

/-- `rateLimitStore.set`. -/
def rlSet (st : RLState) (id : Str) (e : RLEntry) : RLState :=
  fun j => if j = id then some e else st j

/-- `rateLimitStore.delete`. -/
def rlDelete (st : RLState) (id : Str) : RLState :=
  fun j => if j = id then none else st j

/-- `MAX_ATTEMPTS`. -/
def MAX_ATTEMPTS : Nat := 5

/-- `WINDOW_MS` (15 minutes). -/
def WINDOW_MS : Nat := 15 * 60 * 1000

/-- The record `checkRateLimit` returns. -/
structure RLResult where
  isLimited : Bool
  remaining : Nat
  resetTime : Nat
deriving DecidableEq

/-- Model of `checkRateLimit` (utils/rate-limit.ts): a missing or expired
entry is (re)initialized to a fresh window with full quota; otherwise the
report is limited iff the counter reached `MAX_ATTEMPTS`. -/
def checkRateLimit (st : RLState) (id : Str) (now : Nat) : RLResult × RLState :=
  match st id with
  | none =>
    (⟨false, MAX_ATTEMPTS, now + WINDOW_MS⟩, rlSet st id ⟨0, now + WINDOW_MS⟩)
  | some e =>
    if now > e.resetTime then
      (⟨false, MAX_ATTEMPTS, now + WINDOW_MS⟩, rlSet st id ⟨0, now + WINDOW_MS⟩)
    else if e.count ≥ MAX_ATTEMPTS then (⟨true, 0, e.resetTime⟩, st)
    else (⟨false, MAX_ATTEMPTS - e.count, e.resetTime⟩, st)

/-- Model of `incrementRateLimit`: the same lazy-reset rule, then `count + 1`
(the source mutates the fetched entry in place, which on a keyed map equals a
set). -/
def incrementRateLimit (st : RLState) (id : Str) (now : Nat) : RLState :=
  match st id with
  | none => rlSet st id ⟨1, now + WINDOW_MS⟩
  | some e =>
    if now > e.resetTime then rlSet st id ⟨1, now + WINDOW_MS⟩
    else rlSet st id ⟨e.count + 1, e.resetTime⟩

/-- Model of `resetRateLimit`. -/
def resetRateLimit (st : RLState) (id : Str) : RLState :=
  rlDelete st id

/-! ## Login handler -/

/-- The parsed JSON body of a login request; `none` models a body that fails
to parse (the handler's catch turns that into a 500). -/

abbrev LoginBody := Option (Option Str × Option Str)

/-- JavaScript falsiness of a destructured body field. -/
def fieldFalsy : Option Str → Bool
  | none => true
  | some s => s.isEmpty

/-- Model of `handleLogin` (the API handler): rate-limit check first (429
when limited), then body checks (400 on a missing or empty field), then
credential validation — a thrown misconfiguration error is caught into a
500, a failed match increments the limiter for the requesting identifier and
yields 401, and success resets the limiter before creating the session (an
unusable session secret then throws into the catch as a 500, after the
reset).  The result is the response status plus the final limiter state. -/
def handleLogin (st : RLState) (now : Nat) (ip : Str) (body : LoginBody)
    (envUsername envPassword envSecret : Option Str) : Nat × RLState :=
  if (checkRateLimit st ip now).1.isLimited then (429, (checkRateLimit st ip now).2)
  else
    match body with
    | none => (500, (checkRateLimit st ip now).2)
    | some (uo, po) =>
      if fieldFalsy uo || fieldFalsy po then (400, (checkRateLimit st ip now).2)
      else
        match validateCredentials (uo.getD []) (po.getD []) envUsername envPassword with
        | .error _ => (500, (checkRateLimit st ip now).2)
        | .ok false => (401, incrementRateLimit (checkRateLimit st ip now).2 ip now)
        | .ok true =>
          if (getSecretKey envSecret).isOk then
            (200, resetRateLimit (checkRateLimit st ip now).2 ip)
          else (500, resetRateLimit (checkRateLimit st ip now).2 ip)

/-- The attempt counter recorded for an identifier (0 when absent). -/
def attemptCount (st : RLState) (id : Str) : Nat :=
  match st id with
  | none => 0
  | some e => e.count

/-! ## Theorems -/

example : validateFilePath "blog/post.md".data = .ok "blog/post.md".data := by decide

example : validateFilePath "../etc/passwd".data = .error .traversal := by decide

example : validateFilePath "/etc/passwd".data = .error .absolute := by decide

example : validateFilePath "blog/post<script>.md".data = .error .dangerous := by decide

example : validateFilePath "con.md".data = .error .dangerous := by decide

example : validateFilePath "a//b/./c.md".data = .ok "a/b/c.md".data := by decide

theorem startsWithL_slash_elim {p : Str} (h : startsWithL ['/'] p = true) :
    ∃ t, p = '/' :: t := by
  cases p with
  | nil => simp [startsWithL, List.isPrefixOf] at h
  | cons c t =>
    simp [startsWithL, List.isPrefixOf] at h
    exact ⟨t, by rw [h]⟩

theorem normalizePosix_abs (t : Str) :
    startsWithL ['/'] (normalizePosix ('/' :: t)) = true := by
  have habs : startsWithL ['/'] ('/' :: t) = true := by
    simp [startsWithL, List.isPrefixOf]
  unfold normalizePosix
  rw [if_neg (by simp)]
  simp only [habs, if_true]
  split <;> simp [startsWithL, List.isPrefixOf]

theorem stripDD_of_head_ne {c : Char} {t : Str} (h : c ≠ '.') :
    stripDD (c :: t) = c :: t := by
  rw [stripDD.eq_def]
  split <;> simp_all

theorem isOk_eq_true_iff {ε α : Type} (e : Except ε α) :
    e.isOk = true ↔ ∃ a, e = .ok a := by
  cases e <;> simp [Except.isOk, Except.toBool]

/-- Success of `validateFilePath` forces all of its guards to have passed. -/
theorem validateFilePath_ok_props {p n : Str} (h : validateFilePath p = .ok n) :
    p ≠ [] ∧ p.contains nullChar = false ∧ hasSub ddPat p = false ∧
      n = stripDD (normalizePosix p) ∧
      startsWithL ['/'] n = false ∧ startsWithL ['\\'] n = false ∧
      dangerScan n = false := by
  unfold validateFilePath at h
  split_ifs at h
  try simp_all
  split_ifs at h
  simp_all

/-- C6: `validateFilePath` fails for every input containing the substring
`".."` — with the traversal error whenever a null byte did not already cause
an earlier failure — and fails for every path beginning with `"/"` or whose
normalization begins with `"/"`. -/
theorem c6_validateFilePath_rejects (p : Str) :
    (hasSub ddPat p = true →
      (validateFilePath p).isOk = false ∧
        (p.contains nullChar = false → validateFilePath p = .error .traversal)) ∧
    (startsWithL ['/'] p = true → (validateFilePath p).isOk = false) ∧
    (startsWithL ['/'] (normalizePosix p) = true → (validateFilePath p).isOk = false) := by
  refine ⟨?_, ?_, ?_⟩
  · intro hdd
    have hp : p ≠ [] := by
      intro he; subst he; simp [hasSub, ddPat, List.isEmpty] at hdd
    constructor
    · cases hv : validateFilePath p with
      | error e => simp [Except.isOk, Except.toBool]
      | ok n =>
        exfalso
        have := (validateFilePath_ok_props hv).2.2.1
        simp_all
    · intro hnull
      unfold validateFilePath
      rw [if_neg hp, if_neg (by simp only [hnull]; simp), if_pos hdd]
  · intro hslash
    cases hv : validateFilePath p with
    | error e => simp [Except.isOk, Except.toBool]
    | ok n =>
      exfalso
      obtain ⟨t, rfl⟩ := startsWithL_slash_elim hslash
      obtain ⟨-, -, -, hn, hns, -, -⟩ := validateFilePath_ok_props hv
      obtain ⟨u, hu⟩ := startsWithL_slash_elim (normalizePosix_abs t)
      rw [hu, stripDD_of_head_ne (by decide)] at hn
      rw [hn] at hns
      simp [startsWithL, List.isPrefixOf] at hns
  · intro hnorm
    cases hv : validateFilePath p with
    | error e => simp [Except.isOk, Except.toBool]
    | ok n =>
      exfalso
      obtain ⟨-, -, -, hn, hns, -, -⟩ := validateFilePath_ok_props hv
      obtain ⟨u, hu⟩ := startsWithL_slash_elim hnorm
      rw [hu, stripDD_of_head_ne (by decide)] at hn
      rw [hn] at hns
      simp [startsWithL, List.isPrefixOf] at hns

example :
    sanitizeFrontmatter
        (.cons "bad key!".data (.num 1) (.cons "ok-key".data (.str "a\x00b".data) .nil)) =
      .cons "ok-key".data (.str "ab".data) .nil := by decide

theorem stripNull_idem (s : Str) : stripNull (stripNull s) = stripNull s := by
  simp [stripNull, List.filter_filter]

theorem sanitizeArrayItem_idem (v : Fm) :
    sanitizeArrayItem (sanitizeArrayItem v) = sanitizeArrayItem v := by
  cases v <;> simp [sanitizeArrayItem, stripNull_idem]

theorem sanitizeArray_idem (xs : FmList) :
    sanitizeArray (sanitizeArray xs) = sanitizeArray xs := by
  cases xs with
  | nil => rfl
  | cons v t => simp [sanitizeArray, sanitizeArrayItem_idem, sanitizeArray_idem t]

mutual

theorem sanitizeFrontmatter_idem_aux (d : FmObj) :
    sanitizeFrontmatter (sanitizeFrontmatter d) = sanitizeFrontmatter d := by
  cases d with
  | nil => rfl
  | cons k v rest =>
    by_cases hk : keyOk k <;>
      simp [sanitizeFrontmatter, hk, sanitizeValue_idem_aux, sanitizeFrontmatter_idem_aux]

theorem sanitizeValue_idem_aux (v : Fm) :
    sanitizeValue (sanitizeValue v) = sanitizeValue v := by
  cases v <;>
    simp [sanitizeValue, stripNull_idem, sanitizeArray_idem, sanitizeFrontmatter_idem_aux]

end

/-- C9: `sanitizeFrontmatter` is idempotent — sanitized output passes a second
sanitization unchanged (kept keys already match the key regex, strings are
already null-free, nested objects are already sanitized). -/
theorem c9_sanitizeFrontmatter_idem (d : FmObj) :
    sanitizeFrontmatter (sanitizeFrontmatter d) = sanitizeFrontmatter d :=
  sanitizeFrontmatter_idem_aux d

example :
    stringifyMarkdown (.cons "title".data (.str "T".data) .nil) "body".data =
      "---\ntitle: T\n---\nbody\n".data := by decide

example :
    parseMarkdown "---\ntitle: T\n---\nbody\n".data =
      .ok (.cons "title".data (.str "T".data) .nil, "body\n".data) := by decide

example : parseMarkdown "no frontmatter".data = .ok (.nil, "no frontmatter".data) := by decide

/-! ### Decimal codec lemmas -/

/-- C1 (amended): every path the markdown content layer forwards to the
storage provider is the output of a successful `validateFilePath` run on the
operation's own argument — for `listMarkdownFiles` this covers nonempty
directory arguments (the empty default is forwarded as the unvalidated
root). -/
theorem c1_markdown_layer_paths_validated :
    (∀ store p c', c' ∈ (getMarkdownContent store p).2 →
      validateFilePath p = .ok c'.path) ∧
    (∀ p d ct c', c' ∈ (saveMarkdownContent p d ct).2 →
      validateFilePath p = .ok c'.path) ∧
    (∀ p c', c' ∈ (deleteMarkdownContent p).2 → validateFilePath p = .ok c'.path) ∧
    (∀ p c', p ≠ [] → c' ∈ (listMarkdownFiles p).2 → validateFilePath p = .ok c'.path) ∧
    (∀ p c', c' ∈ (markdownFileExists p).2 → validateFilePath p = .ok c'.path) := by
  refine ⟨?_, ?_, ?_, ?_, ?_⟩
  · intro store p c' hc
    unfold getMarkdownContent at hc
    split at hc
    · simp at hc
    · rename_i v hv
      have hpath : c' = .readFile v := by
        split at hc
        · simpa using hc
        · split at hc
          · simpa using hc
          · split at hc <;> simpa using hc
      subst hpath
      exact hv
  · intro p d ct c' hc
    unfold saveMarkdownContent at hc
    split at hc
    · simp at hc
    · rename_i v hv
      split at hc
      · simp at hc
      · simp at hc
        subst hc
        exact hv
  · intro p c' hc
    unfold deleteMarkdownContent at hc
    split at hc
    · simp at hc
    · rename_i v hv
      simp at hc
      subst hc
      exact hv
  · intro p c' hp hc
    unfold listMarkdownFiles at hc
    rw [if_neg hp] at hc
    split at hc
    · simp at hc
    · rename_i v hv
      simp at hc
      subst hc
      exact hv
  · intro p c' hc
    unfold markdownFileExists at hc
    split at hc
    · simp at hc
    · rename_i v hv
      simp at hc
      subst hc
      exact hv

/-- Witness for the amended C1: the read issued for `"blog/post.md"` carries
exactly its validated path. -/
theorem c1_markdown_layer_paths_validated_witness :
    validateFilePath "blog/post.md".data =
      .ok (StorageCall.path (.readFile "blog/post.md".data)) :=
  c1_markdown_layer_paths_validated.1 (fun _ => some "x".data) "blog/post.md".data
    (.readFile "blog/post.md".data) (by decide)

/-- C1 counterexample: `listDirectory` forwards `"a<b"` to the provider's
`listFiles` although no input ever validates to `"a<b"` (successful
validation rejects `'<'`), so this provider-bound path never passed
`validateFilePath`. -/
theorem c1_counterexample :
    (listDirectory "a<b".data).2 = [.listFiles "a<b".data] ∧
      ¬ acceptedPath "a<b".data := by
  refine ⟨rfl, ?_⟩
  rintro ⟨raw, hraw⟩
  have hd := (validateFilePath_ok_props hraw).2.2.2.2.2.2
  exact absurd hd (by decide)

/-- C8: with a valid path, an over-limit serialization fails with
`FileTooLarge` and issues no storage call at all (stored state unchanged);
otherwise exactly the serialized output is written to the validated path. -/
theorem c8_save_size_gate (p v : Str) (d : FmObj) (ct : Str)
    (hv : validateFilePath p = .ok v) :
    (utf8Len (stringifyMarkdown (sanitizeFrontmatter d) ct) > MAX_FILE_SIZE →
      saveMarkdownContent p d ct = (.error .fileTooLarge, [])) ∧
    (utf8Len (stringifyMarkdown (sanitizeFrontmatter d) ct) ≤ MAX_FILE_SIZE →
      saveMarkdownContent p d ct =
        (.ok (), [.writeFile v (stringifyMarkdown (sanitizeFrontmatter d) ct)])) := by
  unfold saveMarkdownContent
  rw [hv]
  dsimp only
  constructor
  · intro h
    rw [if_pos h]
  · intro h
    rw [if_neg (by omega)]

/-- Witness for C8: a small document is written verbatim. -/
theorem c8_save_size_gate_witness :
    saveMarkdownContent "a.md".data .nil "x".data =
      (.ok (), [.writeFile "a.md".data "x\n".data]) :=
  ((c8_save_size_gate "a.md".data "a.md".data .nil "x".data (by decide)).2
    (by decide)).trans (by decide)

/-- C4 (amended): `deleteFile` fails with the backend's not-found error on an
absent file for the local-filesystem and GitHub variants, but the Cloudflare
R2 variant's delete succeeds unconditionally, even when no object exists at
the path. -/
theorem c4_deleteFile_absent (fs : List Str) (repo : Str → Option GitEntry)
    (bucket : List Str) (cwd baseDir filePath : Str) :
    (localFullPath cwd baseDir filePath ∉ fs →
      localDeleteFile fs cwd baseDir filePath = .error .enoent) ∧
    (repo (githubPath baseDir filePath) = none →
      githubDeleteFile repo baseDir filePath = .error .notFound404) ∧
    r2DeleteFile bucket baseDir filePath = .ok () := by
  refine ⟨?_, ?_, rfl⟩
  · intro h
    unfold localDeleteFile fsUnlink
    rw [if_neg h]
  · intro h
    unfold githubDeleteFile
    rw [h]

/-- Witness for the amended C4 on an empty filesystem and repository. -/
theorem c4_deleteFile_absent_witness :
    localDeleteFile [] "cwd".data "public/content".data "a.md".data = .error .enoent ∧
      githubDeleteFile (fun _ => none) "public/content".data "a.md".data =
        .error .notFound404 :=
  ⟨(c4_deleteFile_absent [] (fun _ => none) [] "cwd".data "public/content".data
      "a.md".data).1 (by simp),
    (c4_deleteFile_absent [] (fun _ => none) [] "cwd".data "public/content".data
      "a.md".data).2.1 rfl⟩

/-- C4 counterexample: with an empty bucket — no object exists at any path —
the R2 variant's `deleteFile` succeeds instead of failing with a not-found
error. -/
theorem c4_counterexample :
    r2DeleteFile [] "content".data "a.md".data = .ok () ∧
      "content/a.md".data ∉ ([] : List Str) :=
  ⟨rfl, by simp⟩

/-- C2 counterexample: with no admin credentials configured, the empty
username fails format validation and `validateCredentials` returns `false`
instead of throwing `MisconfiguredAuth`. -/
theorem c2_counterexample :
    validateCredentials [] "p".data none none = .ok false ∧
      (Except.error .misconfiguredAuth : Except AuthError Bool) ≠ .ok false :=
  ⟨by decide, by decide⟩

/-- C2 (amended): for every input pair that passes input-format validation,
absent admin configuration (either variable unset or empty) makes
`validateCredentials` throw `MisconfiguredAuth`. -/
theorem c2_misconfigured_auth (username password : Str)
    (envUsername envPassword : Option Str)
    (hu : (validateUsername username).isOk = true)
    (hp : (validatePassword password).isOk = true)
    (henv : envFalsy envUsername = true ∨ envFalsy envPassword = true) :
    validateCredentials username password envUsername envPassword =
      .error .misconfiguredAuth := by
  unfold validateCredentials
  rw [if_pos (by simp [hu, hp]), if_pos (by rcases henv with h | h <;> simp [h])]

/-- Witness for the amended C2 at a well-formed input and unset environment. -/
theorem c2_misconfigured_auth_witness :
    validateCredentials "admin".data "password123".data none none =
      .error .misconfiguredAuth :=
  c2_misconfigured_auth "admin".data "password123".data none none
    (by decide) (by decide) (Or.inl (by decide))

/-- C7: `verifySession` never throws — it is a total function into an
`Option`, every failure mode (unusable secret, cryptographic failure,
structurally malformed payload) yields `none`, and a non-`none` result can
only arise from a successful, well-typed verification. -/
theorem c7_verifySession_never_throws (envSecret : Option Str)
    (jwtVerify : Str → Str → Except Unit JwtClaims) (token : Str) :
    ((getSecretKey envSecret).isOk = false →
      verifySession envSecret jwtVerify token = none) ∧
    (∀ key, getSecretKey envSecret = .ok key → (jwtVerify token key).isOk = false →
      verifySession envSecret jwtVerify token = none) ∧
    (∀ key payload, getSecretKey envSecret = .ok key → jwtVerify token key = .ok payload →
      (∀ u e, ¬(payload.username = some (.jstr u) ∧ payload.exp = some (.jnum e))) →
      verifySession envSecret jwtVerify token = none) ∧
    (∀ u e, verifySession envSecret jwtVerify token = some (u, e) →
      ∃ key payload, getSecretKey envSecret = .ok key ∧
        jwtVerify token key = .ok payload ∧
        payload.username = some (.jstr u) ∧ payload.exp = some (.jnum e)) := by
  refine ⟨?_, ?_, ?_, ?_⟩
  · intro h
    unfold verifySession
    cases hk : getSecretKey envSecret with
    | error e => rfl
    | ok key => rw [hk] at h; simp [Except.isOk, Except.toBool] at h
  · intro key hk hj
    unfold verifySession
    rw [hk]
    dsimp only
    cases hjv : jwtVerify token key with
    | error e => rfl
    | ok payload => rw [hjv] at hj; simp [Except.isOk, Except.toBool] at hj
  · intro key payload hk hj hbad
    unfold verifySession
    rw [hk]
    dsimp only
    rw [hj]
    dsimp only
    cases hu : payload.username with
    | none => cases he : payload.exp <;> rfl
    | some ju =>
      cases ju with
      | jstr u =>
        cases he : payload.exp with
        | none => rfl
        | some je =>
          cases je with
          | jstr s2 => rfl
          | jnum e => exact absurd ⟨hu, he⟩ (hbad u e)
          | jother => rfl
      | jnum n => cases he : payload.exp <;> rfl
      | jother => cases he : payload.exp <;> rfl
  · intro u e hsome
    unfold verifySession at hsome
    cases hk : getSecretKey envSecret with
    | error er => rw [hk] at hsome; simp at hsome
    | ok key =>
      rw [hk] at hsome
      dsimp only at hsome
      cases hjv : jwtVerify token key with
      | error er => rw [hjv] at hsome; simp at hsome
      | ok payload =>
        rw [hjv] at hsome
        dsimp only at hsome
        refine ⟨key, payload, by simp [hk], by simp [hjv], ?_⟩
        cases hu : payload.username with
        | none =>
          cases he : payload.exp with
          | none => rw [hu, he] at hsome; simp at hsome
          | some je => cases je <;> rw [hu, he] at hsome <;> simp at hsome
        | some ju =>
          cases ju with
          | jstr us =>
            cases he : payload.exp with
            | none => rw [hu, he] at hsome; simp at hsome
            | some je =>
              cases je with
              | jstr s2 => rw [hu, he] at hsome; simp at hsome
              | jnum en =>
                rw [hu, he] at hsome
                simp at hsome
                exact ⟨by rw [hsome.1], by rw [hsome.2]⟩
              | jother => rw [hu, he] at hsome; simp at hsome
          | jnum n =>
            cases he : payload.exp with
            | none => rw [hu, he] at hsome; simp at hsome
            | some je => cases je <;> rw [hu, he] at hsome <;> simp at hsome
          | jother =>
            cases he : payload.exp with
            | none => rw [hu, he] at hsome; simp at hsome
            | some je => cases je <;> rw [hu, he] at hsome <;> simp at hsome

/-- Witness for C7: a missing secret and a failing verifier both yield no
session. -/
theorem c7_verifySession_never_throws_witness :
    verifySession none (fun _ _ => .error ()) "tok".data = none ∧
      verifySession (some "0123456789abcdef0123456789abcdef".data)
        (fun _ _ => .error ()) "tok".data = none :=
  ⟨(c7_verifySession_never_throws none (fun _ _ => .error ()) "tok".data).1 rfl,
    (c7_verifySession_never_throws (some "0123456789abcdef0123456789abcdef".data)
        (fun _ _ => .error ()) "tok".data).2.1
      "0123456789abcdef0123456789abcdef".data (by decide) rfl⟩

theorem rlSet_self (st : RLState) (id : Str) (e : RLEntry) :
    rlSet st id e id = some e := by
  simp [rlSet]

theorem inc_of_some {st : RLState} {id : Str} {now c rt : Nat}
    (h : st id = some ⟨c, rt⟩) (hrt : ¬ now > rt) :
    incrementRateLimit st id now = rlSet st id ⟨c + 1, rt⟩ := by
  unfold incrementRateLimit
  rw [h]
  dsimp only
  rw [if_neg hrt]

/-- C5: a fresh identifier is limited with zero remaining after exactly five
increments, a sixth increment keeps `remaining` at zero (a `Nat`, never
negative, with no failure possible); and for any existing unexpired entry,
`check` reports limited iff `count ≥ 5`, with `remaining = 5 - min count 5`
(that is, `max 0 (5 - count)`) and the stored `resetTime`. -/
theorem c5_rate_limiter (st : RLState) (id : Str) (now : Nat) :
    (st id = none →
      (checkRateLimit
        (incrementRateLimit (incrementRateLimit (incrementRateLimit
          (incrementRateLimit (incrementRateLimit st id now) id now) id now) id now) id now)
        id now).1 = ⟨true, 0, now + WINDOW_MS⟩ ∧
      (checkRateLimit
        (incrementRateLimit (incrementRateLimit (incrementRateLimit (incrementRateLimit
          (incrementRateLimit (incrementRateLimit st id now) id now) id now) id now) id now)
          id now)
        id now).1 = ⟨true, 0, now + WINDOW_MS⟩) ∧
    (∀ c rt, st id = some ⟨c, rt⟩ → ¬ now > rt →
      (checkRateLimit st id now).1 =
        ⟨decide (c ≥ MAX_ATTEMPTS), MAX_ATTEMPTS - min c MAX_ATTEMPTS, rt⟩) := by
  constructor
  · intro h0
    have hrt : ¬ now > now + WINDOW_MS := by unfold WINDOW_MS; omega
    have h1 : incrementRateLimit st id now = rlSet st id ⟨1, now + WINDOW_MS⟩ := by
      unfold incrementRateLimit
      rw [h0]
    have l1 : (incrementRateLimit st id now) id = some ⟨1, now + WINDOW_MS⟩ := by
      rw [h1]; exact rlSet_self ..
    have h2 := inc_of_some l1 hrt
    have l2 : (incrementRateLimit (incrementRateLimit st id now) id now) id =
        some ⟨2, now + WINDOW_MS⟩ := by
      rw [h2]; exact rlSet_self ..
    have h3 := inc_of_some l2 hrt
    have l3 : (incrementRateLimit (incrementRateLimit (incrementRateLimit st id now) id now)
        id now) id = some ⟨3, now + WINDOW_MS⟩ := by
      rw [h3]; exact rlSet_self ..
    have h4 := inc_of_some l3 hrt
    have l4 : (incrementRateLimit (incrementRateLimit (incrementRateLimit
        (incrementRateLimit st id now) id now) id now) id now) id =
        some ⟨4, now + WINDOW_MS⟩ := by
      rw [h4]; exact rlSet_self ..
    have h5 := inc_of_some l4 hrt
    have l5 : (incrementRateLimit (incrementRateLimit (incrementRateLimit
        (incrementRateLimit (incrementRateLimit st id now) id now) id now) id now) id now) id =
        some ⟨5, now + WINDOW_MS⟩ := by
      rw [h5]; exact rlSet_self ..
    have h6 := inc_of_some l5 hrt
    have l6 : (incrementRateLimit (incrementRateLimit (incrementRateLimit
        (incrementRateLimit (incrementRateLimit (incrementRateLimit st id now) id now) id now)
        id now) id now) id now) id = some ⟨6, now + WINDOW_MS⟩ := by
      rw [h6]; exact rlSet_self ..
    constructor
    · unfold checkRateLimit
      rw [l5]
      dsimp only
      rw [if_neg hrt, if_pos (by unfold MAX_ATTEMPTS; omega)]
    · unfold checkRateLimit
      rw [l6]
      dsimp only
      rw [if_neg hrt, if_pos (by unfold MAX_ATTEMPTS; omega)]
  · intro c rt hst hrt
    unfold checkRateLimit
    rw [hst]
    dsimp only
    rw [if_neg hrt]
    by_cases hc : c ≥ MAX_ATTEMPTS
    · rw [if_pos hc]
      simp [hc, Nat.min_eq_right (by omega : MAX_ATTEMPTS ≤ c)]
    · rw [if_neg hc]
      simp [hc, Nat.min_eq_left (by omega : c ≤ MAX_ATTEMPTS)]

/-- Witness for C5: the empty store at identifier `"ip"` and time 0. -/
theorem c5_rate_limiter_witness :
    (checkRateLimit
      (incrementRateLimit (incrementRateLimit (incrementRateLimit
        (incrementRateLimit (incrementRateLimit (fun _ => none) "ip".data 0) "ip".data 0)
        "ip".data 0) "ip".data 0) "ip".data 0)
      "ip".data 0).1 = ⟨true, 0, WINDOW_MS⟩ ∧
    (checkRateLimit ((fun _ => some ⟨2, 400⟩) : RLState) "ip".data 0).1 =
      ⟨false, 3, 400⟩ := by
  constructor
  · exact ((c5_rate_limiter (fun _ => none) "ip".data 0).1 rfl).1
  · exact ((c5_rate_limiter (fun _ => some ⟨2, 400⟩) "ip".data 0).2 2 400 rfl
      (by omega)).trans (by decide)

/-- C10: when the requester is not already limited, a parsed body lacking a
username or a password yields status 400 and leaves the limiter state exactly
as the initial check left it (no increment); and the attempt counter can only
exceed the post-check counter when a credential check actually ran and
failed. -/
theorem c10_login_no_increment_on_400 (st : RLState) (now : Nat) (ip : Str)
    (envU envP envS : Option Str) :
    (∀ uo po, (checkRateLimit st ip now).1.isLimited = false →
      (fieldFalsy uo = true ∨ fieldFalsy po = true) →
      handleLogin st now ip (some (uo, po)) envU envP envS =
        (400, (checkRateLimit st ip now).2)) ∧
    (∀ body : LoginBody,
      attemptCount (handleLogin st now ip body envU envP envS).2 ip >
          attemptCount (checkRateLimit st ip now).2 ip →
      ∃ u p, body = some (some u, some p) ∧
        validateCredentials u p envU envP = .ok false) := by
  constructor
  · intro uo po hlim hmiss
    unfold handleLogin
    rw [if_neg (by simp [hlim])]
    dsimp only
    rw [if_pos (by rcases hmiss with h | h <;> simp [h])]
  · intro body hgt
    unfold handleLogin at hgt
    by_cases hlim : (checkRateLimit st ip now).1.isLimited
    · rw [if_pos hlim] at hgt
      simp at hgt
    · rw [if_neg hlim] at hgt
      cases body with
      | none => simp at hgt
      | some fields =>
        obtain ⟨uo, po⟩ := fields
        dsimp only at hgt
        by_cases hf : fieldFalsy uo || fieldFalsy po
        · rw [if_pos hf] at hgt
          simp at hgt
        · rw [if_neg hf] at hgt
          cases hvc : validateCredentials (uo.getD []) (po.getD []) envU envP with
          | error e =>
            rw [hvc] at hgt
            simp at hgt
          | ok b =>
            rw [hvc] at hgt
            cases b with
            | true =>
              dsimp only at hgt
              by_cases hs : (getSecretKey envS).isOk
              · rw [if_pos hs] at hgt
                unfold attemptCount resetRateLimit rlDelete at hgt
                simp at hgt
              · rw [if_neg hs] at hgt
                unfold attemptCount resetRateLimit rlDelete at hgt
                simp at hgt
            | false =>
              have huo : ∃ u, uo = some u := by
                cases uo with
                | none => simp [fieldFalsy] at hf
                | some u => exact ⟨u, rfl⟩
              have hpo : ∃ p, po = some p := by
                cases po with
                | none => simp [fieldFalsy] at hf
                | some p => exact ⟨p, rfl⟩
              obtain ⟨u, rfl⟩ := huo
              obtain ⟨p, rfl⟩ := hpo
              exact ⟨u, p, rfl, by simpa using hvc⟩

/-- Witness for C10: an unlimited requester with a missing password gets a
400 with the limiter state untouched beyond the check itself. -/
theorem c10_login_no_increment_on_400_witness :
    handleLogin (fun _ => none) 0 "ip".data (some (some "admin".data, none))
        none none none =
      (400, (checkRateLimit (fun _ => none) "ip".data 0).2) :=
  (c10_login_no_increment_on_400 (fun _ => none) 0 "ip".data none none none).1
    (some "admin".data) none rfl (Or.inr rfl)

/-- Witness for C6 at the spec's own example inputs. -/
theorem c6_validateFilePath_rejects_witness :
    (validateFilePath "blog/../../etc/passwd".data).isOk = false ∧
      validateFilePath "blog/../../etc/passwd".data = .error .traversal ∧
      (validateFilePath "/etc/passwd".data).isOk = false := by
  refine ⟨((c6_validateFilePath_rejects _).1 (by decide)).1,
          ((c6_validateFilePath_rejects _).1 (by decide)).2 (by decide),
          (c6_validateFilePath_rejects _).2.1 (by decide)⟩

end CMS
